import Mathlib

/-!
Shallow embedding of the retry/backoff engine (`src/utils.ts`) and the batch
deletion orchestrator (`src/main.mts`) of the cfn-cleaner repository.

Modelling conventions:
* A thrown JavaScript value is modelled by `JSError`: whether it is an
  `instanceof Error`, its `name` field (`none` when absent or not a string),
  its `code` field, and its `message` string.
* An asynchronous operation handed to `withRetry` is modelled as a function
  from the 0-based invocation index to `Except JSError α`: invocation `i`
  either succeeds with a value or throws an error.  `withRetry` returns the
  final outcome together with the number of times the operation was invoked.
* `Math.random()` draws are passed in explicitly as rational parameters
  (one per call, a list for stateful sequences).  Delays are rationals in
  milliseconds.  The `sleep` calls and `console.warn` logging in the source
  are side effects that do not influence any returned value or the control
  flow, so they have no counterpart in the embedding.
-/

/-- Model of a thrown JavaScript value, as inspected by `isAWSError` /
`isRetryableError` in `src/utils.ts`: `isErrorInstance` is
`error instanceof Error`; `name`/`code` are `none` when the field is absent
or not a string. -/
structure JSError where
  isErrorInstance : Bool
  name : Option String
  code : Option String
  message : String
deriving DecidableEq

/-- Substring test on lists of characters, used to model
`String.prototype.includes`. -/
def charListIncludes (pat : List Char) : List Char → Bool
  | [] => pat.isEmpty
  | c :: rest => pat.isPrefixOf (c :: rest) || charListIncludes pat rest

/-- Model of `message.includes(pat)`. -/
def strIncludes (s pat : String) : Bool :=
  charListIncludes pat.toList s.toList

/-- `isAWSError` from `src/utils.ts` lines 170–176:
`error instanceof Error && 'name' in error && typeof error.name === 'string'`. -/
def isAWSError (e : JSError) : Bool :=
  e.isErrorInstance && e.name.isSome

/-- `isRetryableError` from `src/utils.ts` lines 178–189.  The JS guard
`error.message && …` is the truthiness test: an empty string short-circuits
to false. -/
def isRetryableError (e : JSError) : Bool :=
  e.name == some "ThrottlingException" ||
  e.name == some "TooManyRequestsException" ||
  e.name == some "RequestLimitExceeded" ||
  e.code == some "RequestThrottled" ||
  (!(e.message == "") && strIncludes e.message "Rate exceeded")

/-- The `while (true)` loop of `withRetry` (`src/utils.ts` lines 139–167).
`attempt` is the number of completed invocations so far (the source's
`attempt` counter before the `attempt++` of the current iteration);
`op attempt` is the outcome of the next invocation.  Returns the propagated
outcome and the total number of invocations.  The backoff delay computed in
the loop only feeds `sleep` and the warning log, so it does not appear here. -/
def withRetryGo (op : Nat → Except JSError α) (maxAttempts : Nat) (attempt : Nat) :
    Except JSError α × Nat :=
  match op attempt with
  | .ok v => (.ok v, attempt + 1)
  | .error e =>
    if isAWSError e = false then (.error e, attempt + 1)
    else if h : isRetryableError e = true ∧ attempt + 1 < maxAttempts then
      withRetryGo op maxAttempts (attempt + 1)
    else (.error e, attempt + 1)
termination_by maxAttempts - attempt
decreasing_by omega

/-- (Full) `BackoffConfig` after defaulting, `src/utils.ts` lines 10–19.
The TS enum `BackoffStrategy` has string values, and `createBackoffCalculator`
can receive any runtime value, so `strategy` is modelled as the raw string. -/
structure BackoffConfig where
  strategy : String
  baseDelay : ℚ
  maxDelay : ℚ
  jitterFactor : ℚ
deriving DecidableEq

/-- `RetryOptions` as passed by a caller: every field optional
(`src/utils.ts` lines 21–24). -/
structure RetryOptions where
  strategy : Option String
  baseDelay : Option ℚ
  maxDelay : Option ℚ
  jitterFactor : Option ℚ
  maxAttempts : Option Nat
deriving DecidableEq

/-- Defaulting of `options` inside `withRetry`, `src/utils.ts` lines 128–133
(`??` is modelled by `Option.getD`; `0.2` is the rational `1/5`). -/
def resolveConfig (options : RetryOptions) : BackoffConfig where
  strategy := options.strategy.getD "exponential"
  baseDelay := options.baseDelay.getD 1000
  maxDelay := options.maxDelay.getD 20000
  jitterFactor := options.jitterFactor.getD (1/5)

/-- `const maxAttempts = options.maxAttempts ?? 3` (`src/utils.ts` line 135). -/
def resolveMaxAttempts (options : RetryOptions) : Nat :=
  options.maxAttempts.getD 3

/-- Which concrete calculator class `createBackoffCalculator` instantiates. -/
inductive CalculatorKind where
  | exponentialCalc
  | decorrelatedJitterCalc
  | fullJitterCalc
deriving DecidableEq

/-- `createBackoffCalculator`, `src/utils.ts` lines 108–118: a `switch` on
`config.strategy` whose `default` case (any string other than the two jitter
enum values, including `'exponential'`) builds `ExponentialBackoff`. -/
def createBackoffCalculator (config : BackoffConfig) : CalculatorKind :=
  if config.strategy = "decorrelated-jitter" then .decorrelatedJitterCalc
  else if config.strategy = "full-jitter" then .fullJitterCalc
  else .exponentialCalc

/-- `withRetry` (`src/utils.ts` lines 123–168) restricted to its observable
outcome: final result and invocation count.  Config resolution and calculator
construction happen before the loop; the loop itself is `withRetryGo` started
at `attempt = 0`. -/
def withRetry (op : Nat → Except JSError α) (options : RetryOptions) :
    Except JSError α × Nat :=
  withRetryGo op (resolveMaxAttempts options) 0

/-- `ExponentialBackoff.nextDelay`, `src/utils.ts` lines 45–53, with the
`Math.random()` draw passed in as `rand`. -/
def exponentialNextDelay (config : BackoffConfig) (attempt : Nat) (rand : ℚ) : ℚ :=
  let baseDelay := config.baseDelay * 2 ^ (attempt - 1)
  let delay := min baseDelay config.maxDelay
  if config.jitterFactor = 0 then delay
  else
    let jitter := delay * config.jitterFactor
    delay - jitter + rand * jitter * 2

/-- `DecorrelatedJitterBackoff.nextDelay`, `src/utils.ts` lines 70–82:
given the current `lastDelay` state and the `Math.random()` draw, returns the
new `lastDelay`, which is also the returned delay. -/
def decorrelatedNextDelay (config : BackoffConfig) (lastDelay : ℚ) (rand : ℚ) : ℚ :=
  let minDelay := config.baseDelay
  let calcDelay := min config.maxDelay (config.jitterFactor * 3 * lastDelay)
  (⌊minDelay + rand * (calcDelay - minDelay)⌋ : ℤ)

/-- The outputs of repeated `nextDelay()` calls on one
`DecorrelatedJitterBackoff` instance, one `Math.random()` draw per call,
threading the `lastDelay` state.  After construction or `reset()`,
`lastDelay = config.baseDelay`. -/
def decorrelatedOutputs (config : BackoffConfig) : ℚ → List ℚ → List ℚ
  | _, [] => []
  | lastDelay, r :: rs =>
    let d := decorrelatedNextDelay config lastDelay r
    d :: decorrelatedOutputs config d rs

/-- `FullJitterBackoff.nextDelay`, `src/utils.ts` lines 95–99. -/
def fullJitterNextDelay (config : BackoffConfig) (attempt : Nat) (rand : ℚ) : ℚ :=
  let baseDelay := config.baseDelay * 2 ^ (attempt - 1)
  let capDelay := min baseDelay config.maxDelay
  rand * capDelay

/-- `arrayChunk` from `src/main.mts` lines 148–151:
`array.reduce((acc, __value, index) => (index % size ? acc : [...acc,
array.slice(index, index + size)]), [])`.  The accumulator appends the slice
exactly when `index % size` is `0` (falsy).  (For `size = 0` JS computes
`index % 0 = NaN`, always truthy; the claims only use positive sizes.) -/
def arrayChunk (array : List α) (size : Nat) : List (List α) :=
  (List.range array.length).foldl
    (fun acc index =>
      if index % size = 0 then acc ++ [(array.drop index).take size] else acc)
    []

/-- The value part of one per-identifier deletion pipeline in `src/main.mts`
lines 200–214, after the warm-up `sleep(3000)` (which returns no value):
`client.send(new DeleteStackCommand(…)).catch((e) => logger.error(e))`
resolves with the response on success and with `undefined` (here `none`) on
rejection, because the `.catch` handler only logs and returns nothing; then
`waitUntilStackDeleteComplete` is awaited (uncaught), and `resp` is returned.
`deleteResult` is the outcome of the send, `waitResult` that of the waiter. -/
def deletePipeline (deleteResult : Except JSError β) (waitResult : Except JSError Unit) :
    Except JSError (Option β) :=
  let resp : Option β :=
    match deleteResult with
    | .ok r => some r
    | .error _ => none
  match waitResult with
  | .ok _ => .ok resp
  | .error e => .error e

/-! ## Retry orchestrator: invocation counts and error propagation -/

/-- If every invocation from index `j` up to `m - 2` throws an
`Error`-instance `ThrottlingException` and invocation `m - 1` succeeds, the
retry loop entered with `attempt = j` returns the success value after `m`
total invocations. -/
lemma withRetryGo_throttle_run (op : Nat → Except JSError α) (m : Nat) (v : α)
    (hm : 1 ≤ m) (hsucc : op (m - 1) = .ok v) :
    ∀ k j, j + k = m - 1 →
    (∀ i, j ≤ i → i < m - 1 → ∃ e : JSError, op i = .error e ∧
      e.isErrorInstance = true ∧ e.name = some "ThrottlingException") →
    withRetryGo op m j = (.ok v, m) := by
  intro k
  induction k with
  | zero =>
    intro j hj _
    have hj' : j = m - 1 := by omega
    subst hj'
    rw [withRetryGo, hsucc]
    simp
    omega
  | succ k ih =>
    intro j hj hfail
    obtain ⟨e, hop, hinst, hname⟩ := hfail j le_rfl (by omega)
    have haws : isAWSError e = true := by simp [isAWSError, hinst, hname]
    have hretry : isRetryableError e = true := by simp [isRetryableError, hname]
    rw [withRetryGo, hop]
    simp only [haws]
    rw [dif_pos ⟨hretry, by omega⟩]
    exact ih (j + 1) (by omega) (fun i hi hi' => hfail i (by omega) hi')

/-- C1: for every `maxAttempts ≥ 1`, if `withRetry` is given an operation
that throws an error named `ThrottlingException` on exactly the first
`maxAttempts - 1` invocations and then succeeds, `withRetry` returns the
success value and the operation is invoked exactly `maxAttempts` times. -/
theorem withRetry_throttle_then_success
    (maxAttempts : Nat) (hm : 1 ≤ maxAttempts)
    (options : RetryOptions) (hopts : options.maxAttempts = some maxAttempts)
    (op : Nat → Except JSError α) (v : α)
    (hfail : ∀ i, i < maxAttempts - 1 → ∃ e : JSError, op i = .error e ∧
      e.isErrorInstance = true ∧ e.name = some "ThrottlingException")
    (hsucc : op (maxAttempts - 1) = .ok v) :
    withRetry op options = (.ok v, maxAttempts) := by
  rw [withRetry, resolveMaxAttempts, hopts, Option.getD_some]
  exact withRetryGo_throttle_run op maxAttempts v hm hsucc (maxAttempts - 1) 0 (by omega)
    (fun i _ hi' => hfail i hi')

/-- C2: if `withRetry` is given an operation that always throws an
`Error`-instance named `ThrottlingException`, with `maxAttempts = 3`, the
operation is invoked exactly 3 times and `withRetry` then propagates that
same error object. -/
theorem withRetry_throttle_exhaust
    (options : RetryOptions) (hopts : options.maxAttempts = some 3)
    (op : Nat → Except JSError α) (e : JSError)
    (hop : ∀ i, op i = .error e)
    (hinst : e.isErrorInstance = true)
    (hname : e.name = some "ThrottlingException") :
    withRetry op options = (.error e, 3) := by
  have haws : isAWSError e = true := by simp [isAWSError, hinst, hname]
  have hretry : isRetryableError e = true := by simp [isRetryableError, hname]
  rw [withRetry, resolveMaxAttempts, hopts, Option.getD_some]
  rw [withRetryGo, hop 0]
  simp only [haws]
  rw [dif_pos ⟨hretry, by omega⟩]
  rw [withRetryGo, hop 1]
  simp only [haws]
  rw [dif_pos ⟨hretry, by omega⟩]
  rw [withRetryGo, hop 2]
  simp only [haws]
  rw [dif_neg (by omega : ¬ (isRetryableError e = true ∧ 2 + 1 < 3))]
  simp

/-- C3: if `withRetry` is given an operation that always throws a
non-retryable error — either one with no string `name` field, or one whose
`name` is outside the allow-list
`{ThrottlingException, TooManyRequestsException, RequestLimitExceeded}` with
`code ≠ RequestThrottled` and message not containing `Rate exceeded` — then
for every `maxAttempts` (any `options`) the operation is invoked exactly
once and the error is propagated immediately. -/
theorem withRetry_nonretryable_once
    (options : RetryOptions) (op : Nat → Except JSError α) (e : JSError)
    (hop : op 0 = .error e)
    (hcase : e.name = none ∨
      (e.name ≠ some "ThrottlingException" ∧ e.name ≠ some "TooManyRequestsException" ∧
       e.name ≠ some "RequestLimitExceeded" ∧ e.code ≠ some "RequestThrottled" ∧
       strIncludes e.message "Rate exceeded" = false)) :
    withRetry op options = (.error e, 1) := by
  rw [withRetry, withRetryGo, hop]
  rcases hcase with hname | ⟨h1, h2, h3, h4, h5⟩
  · have haws : isAWSError e = false := by simp [isAWSError, hname]
    simp [haws]
  · have hretry : isRetryableError e = false := by
      simp [isRetryableError, h1, h2, h3, h4, h5]
    rcases haws : isAWSError e with _ | _
    · simp [haws]
    · simp [haws, hretry]

/-- C9: a thrown value that is not an `instanceof Error` — even a plain
object exposing `name = "ThrottlingException"` — is propagated immediately
after exactly one invocation, for every `options`: retry classification
applies only to `Error` instances. -/
theorem withRetry_nonError_once
    (options : RetryOptions) (op : Nat → Except JSError α) (e : JSError)
    (hop : op 0 = .error e) (hinst : e.isErrorInstance = false) :
    withRetry op options = (.error e, 1) := by
  have haws : isAWSError e = false := by simp [isAWSError, hinst]
  rw [withRetry, withRetryGo, hop]
  simp [haws]

/-- An `Error` instance named `ThrottlingException`. -/
def throttleError : JSError := ⟨true, some "ThrottlingException", none, ""⟩

/-- An `Error` instance named `ValidationException` (outside the retryable
allow-list). -/
def validationError : JSError := ⟨true, some "ValidationException", none, "invalid"⟩

/-- A thrown plain object (not `instanceof Error`) that nevertheless has
`name = "ThrottlingException"`. -/
def plainThrottleObject : JSError := ⟨false, some "ThrottlingException", none, ""⟩

/-- An operation that throws `throttleError` on its first two invocations
and then succeeds with `42`. -/
def twoThrottlesThenOk : Nat → Except JSError Nat
  | 0 => .error throttleError
  | 1 => .error throttleError
  | _ => .ok 42

/-- Witness for C1 at `maxAttempts = 3`: two throttles then success returns
`42` after exactly 3 invocations. -/
theorem withRetry_throttle_then_success_witness :
    withRetry twoThrottlesThenOk ⟨none, none, none, none, some 3⟩ = (.ok 42, 3) := by
  apply withRetry_throttle_then_success 3 (by norm_num) _ rfl
  · intro i hi
    interval_cases i
    · exact ⟨throttleError, rfl, rfl, rfl⟩
    · exact ⟨throttleError, rfl, rfl, rfl⟩
  · rfl

/-- Witness for C2: an always-throttling operation with `maxAttempts = 3`
is invoked 3 times and its error propagated. -/
theorem withRetry_throttle_exhaust_witness :
    withRetry (fun _ => (.error throttleError : Except JSError Nat))
      ⟨none, none, none, none, some 3⟩ = (.error throttleError, 3) := by
  exact withRetry_throttle_exhaust _ rfl _ throttleError (fun _ => rfl) rfl rfl

/-- Witness for C3: a `ValidationException` is propagated after exactly one
invocation (here with all options defaulted). -/
theorem withRetry_nonretryable_once_witness :
    withRetry (fun _ => (.error validationError : Except JSError Nat))
      ⟨none, none, none, none, none⟩ = (.error validationError, 1) := by
  exact withRetry_nonretryable_once _ _ validationError rfl
    (Or.inr ⟨by decide, by decide, by decide, by decide, by decide⟩)

/-- Witness for C9: a non-`Error` object carrying a retryable-looking name
is still propagated after one invocation, even with `maxAttempts = 5`. -/
theorem withRetry_nonError_once_witness :
    withRetry (fun _ => (.error plainThrottleObject : Except JSError Nat))
      ⟨none, none, none, none, some 5⟩ = (.error plainThrottleObject, 1) := by
  exact withRetry_nonError_once _ _ plainThrottleObject rfl rfl

/-! ## Backoff engine: delay formulas and bounds -/

/-- C4: for every `attempt ≥ 1` and every config with positive integer
`baseDelay`, `maxDelay ≥ baseDelay` and `jitterFactor = 0`,
`ExponentialBackoff.nextDelay` returns exactly
`min (baseDelay * 2 ^ (attempt - 1)) maxDelay`, for every random draw. -/
theorem exponential_nextDelay_no_jitter
    (config : BackoffConfig) (b : ℤ) (hb : config.baseDelay = b) (hbpos : 0 < b)
    (hmax : config.baseDelay ≤ config.maxDelay)
    (hjf : config.jitterFactor = 0)
    (attempt : Nat) (ha : 1 ≤ attempt) (rand : ℚ) :
    exponentialNextDelay config attempt rand
      = min (config.baseDelay * 2 ^ (attempt - 1)) config.maxDelay := by
  simp [exponentialNextDelay, hjf]

/-- Witness for C4 at `baseDelay = 1000`, `maxDelay = 20000`, `attempt = 3`. -/
theorem exponential_nextDelay_no_jitter_witness :
    exponentialNextDelay ⟨"exponential", 1000, 20000, 0⟩ 3 (1/2)
      = min ((1000 : ℚ) * 2 ^ (3 - 1)) 20000 := by
  exact exponential_nextDelay_no_jitter ⟨"exponential", 1000, 20000, 0⟩ 1000 rfl
    (by norm_num) (by norm_num) rfl 3 (by norm_num) (1/2)

/-- One `DecorrelatedJitterBackoff.nextDelay` call with `jitterFactor ≥ 1/3`,
integer `baseDelay > 0`, `maxDelay ≥ baseDelay` and current state
`lastDelay ≥ baseDelay` stays within
`[baseDelay, min maxDelay (jitterFactor * 3 * lastDelay)]`. -/
lemma decorrelated_step (config : BackoffConfig) (b : ℤ)
    (hb : config.baseDelay = b) (hbpos : 0 < b)
    (hmax : config.baseDelay ≤ config.maxDelay)
    (hjf : 1/3 ≤ config.jitterFactor)
    (lastDelay : ℚ) (hlast : config.baseDelay ≤ lastDelay)
    (rand : ℚ) (h0 : 0 ≤ rand) (h1 : rand ≤ 1) :
    config.baseDelay ≤ decorrelatedNextDelay config lastDelay rand ∧
    decorrelatedNextDelay config lastDelay rand
      ≤ min config.maxDelay (config.jitterFactor * 3 * lastDelay) := by
  have hbase_nonneg : (0 : ℚ) ≤ config.baseDelay := by
    rw [hb]; exact_mod_cast hbpos.le
  have hlast_nonneg : (0 : ℚ) ≤ lastDelay := le_trans hbase_nonneg hlast
  have hjl : lastDelay ≤ config.jitterFactor * 3 * lastDelay := by
    nlinarith
  have hcalc_ge : config.baseDelay ≤ min config.maxDelay (config.jitterFactor * 3 * lastDelay) := by
    exact le_min hmax (le_trans hlast hjl)
  set calcDelay := min config.maxDelay (config.jitterFactor * 3 * lastDelay) with hc
  have hx_ge : config.baseDelay ≤ config.baseDelay + rand * (calcDelay - config.baseDelay) := by
    nlinarith
  have hx_le : config.baseDelay + rand * (calcDelay - config.baseDelay) ≤ calcDelay := by
    nlinarith
  constructor
  · rw [decorrelatedNextDelay, ← hc, hb]
    rw [hb] at hx_ge
    exact_mod_cast Int.le_floor.mpr hx_ge
  · rw [decorrelatedNextDelay, ← hc]
    exact le_trans (Int.floor_le _) hx_le

/-- C5 (amended): for `DecorrelatedJitterBackoff` with positive integer
`baseDelay`, `maxDelay ≥ baseDelay` and `jitterFactor ≥ 1/3` (the claim's
`jitterFactor > 0` is refuted by `decorrelated_below_base`): immediately
after `reset()` the next `nextDelay()` result lies in
`[baseDelay, min maxDelay (jitterFactor * 3 * baseDelay)]`, and any sequence
of repeated `nextDelay()` calls without reset never returns a value below
`baseDelay` or above `maxDelay`, for every value of the random draws. -/
theorem decorrelated_bounds
    (config : BackoffConfig) (b : ℤ)
    (hb : config.baseDelay = b) (hbpos : 0 < b)
    (hmax : config.baseDelay ≤ config.maxDelay)
    (hjf : 1/3 ≤ config.jitterFactor) :
    (∀ rand : ℚ, 0 ≤ rand → rand ≤ 1 →
      config.baseDelay ≤ decorrelatedNextDelay config config.baseDelay rand ∧
      decorrelatedNextDelay config config.baseDelay rand
        ≤ min config.maxDelay (config.jitterFactor * 3 * config.baseDelay)) ∧
    (∀ rands : List ℚ, (∀ r ∈ rands, 0 ≤ r ∧ r ≤ 1) →
      ∀ d ∈ decorrelatedOutputs config config.baseDelay rands,
        config.baseDelay ≤ d ∧ d ≤ config.maxDelay) := by
  constructor
  · intro rand h0 h1
    exact decorrelated_step config b hb hbpos hmax hjf config.baseDelay le_rfl rand h0 h1
  · have main : ∀ rands : List ℚ, (∀ r ∈ rands, 0 ≤ r ∧ r ≤ 1) →
        ∀ lastDelay : ℚ, config.baseDelay ≤ lastDelay →
        ∀ d ∈ decorrelatedOutputs config lastDelay rands,
          config.baseDelay ≤ d ∧ d ≤ config.maxDelay := by
      intro rands
      induction rands with
      | nil => intro _ lastDelay _ d hd; simp [decorrelatedOutputs] at hd
      | cons r rs ih =>
        intro hr lastDelay hlast d hd
        rw [decorrelatedOutputs] at hd
        obtain ⟨h0, h1⟩ := hr r (List.mem_cons_self r rs)
        have step := decorrelated_step config b hb hbpos hmax hjf lastDelay hlast r h0 h1
        rcases List.mem_cons.mp hd with rfl | hd'
        · exact ⟨step.1, le_trans step.2 (min_le_left _ _)⟩
        · exact ih (fun r' hr' => hr r' (List.mem_cons_of_mem r hr'))
            (decorrelatedNextDelay config lastDelay r) step.1 d hd'
    intro rands hr
    exact main rands hr config.baseDelay le_rfl

/-- Witness for C5 (amended) at `jitterFactor = 1`, `baseDelay = 1000`,
`maxDelay = 20000`, draw `1/2`. -/
theorem decorrelated_bounds_witness :
    (1000 : ℚ) ≤ decorrelatedNextDelay ⟨"decorrelated-jitter", 1000, 20000, 1⟩ 1000 (1/2) ∧
    decorrelatedNextDelay ⟨"decorrelated-jitter", 1000, 20000, 1⟩ 1000 (1/2)
      ≤ min (20000 : ℚ) (1 * 3 * 1000) := by
  exact (decorrelated_bounds ⟨"decorrelated-jitter", 1000, 20000, 1⟩ 1000 rfl
    (by norm_num) (by norm_num) (by norm_num)).1 (1/2) (by norm_num) (by norm_num)

/-- Counterexample to C5 as stated: with `baseDelay = 1000`,
`maxDelay = 20000` and `jitterFactor = 1/5` (which is `> 0`), the first
post-reset draw at `rand = 99/100` returns `604`, which is below
`baseDelay`: the claimed lower bound fails for `0 < jitterFactor < 1/3`. -/
theorem decorrelated_below_base :
    (0 : ℚ) < 1/5 ∧ (1 : ℚ) ≤ 1000 ∧ (1000 : ℚ) ≤ 20000 ∧
    decorrelatedNextDelay ⟨"decorrelated-jitter", 1000, 20000, 1/5⟩ 1000 (99/100) = 604 ∧
    ¬ ((1000 : ℚ) ≤ 604) := by
  refine ⟨by norm_num, by norm_num, by norm_num, ?_, by norm_num⟩
  rw [decorrelatedNextDelay]
  norm_num

/-- C6: for every `attempt ≥ 1` and every config with positive integer
`baseDelay` and `maxDelay ≥ baseDelay`, `FullJitterBackoff.nextDelay`
returns a value in `[0, min (baseDelay * 2 ^ (attempt - 1)) maxDelay]`, for
every random draw in `[0, 1]`. -/
theorem fullJitter_nextDelay_bounds
    (config : BackoffConfig) (b : ℤ)
    (hb : config.baseDelay = b) (hbpos : 0 < b)
    (hmax : config.baseDelay ≤ config.maxDelay)
    (attempt : Nat) (ha : 1 ≤ attempt)
    (rand : ℚ) (h0 : 0 ≤ rand) (h1 : rand ≤ 1) :
    0 ≤ fullJitterNextDelay config attempt rand ∧
    fullJitterNextDelay config attempt rand
      ≤ min (config.baseDelay * 2 ^ (attempt - 1)) config.maxDelay := by
  have hbase_nonneg : (0 : ℚ) ≤ config.baseDelay := by
    rw [hb]; exact_mod_cast hbpos.le
  have hcap_nonneg : (0 : ℚ) ≤ min (config.baseDelay * 2 ^ (attempt - 1)) config.maxDelay := by
    apply le_min
    · positivity
    · exact le_trans hbase_nonneg hmax
  rw [fullJitterNextDelay]
  exact ⟨mul_nonneg h0 hcap_nonneg, mul_le_of_le_one_left hcap_nonneg h1⟩

/-- Witness for C6 at `baseDelay = 1000`, `maxDelay = 20000`, `attempt = 3`,
draw `1/2`. -/
theorem fullJitter_nextDelay_bounds_witness :
    (0 : ℚ) ≤ fullJitterNextDelay ⟨"full-jitter", 1000, 20000, 1/5⟩ 3 (1/2) ∧
    fullJitterNextDelay ⟨"full-jitter", 1000, 20000, 1/5⟩ 3 (1/2)
      ≤ min ((1000 : ℚ) * 2 ^ (3 - 1)) 20000 := by
  exact fullJitter_nextDelay_bounds ⟨"full-jitter", 1000, 20000, 1/5⟩ 1000 rfl
    (by norm_num) (by norm_num) 3 (by norm_num) (1/2) (by norm_num) (by norm_num)

/-! ## Batch partitioning, option defaulting, and the deletion pipeline -/

/-- In a partition whose concatenation has no duplicates, an element of the
concatenation belongs to exactly one part. -/
lemma countP_mem_flatten_nodup [DecidableEq α] (L : List (List α)) (x : α)
    (hnd : L.flatten.Nodup) (hx : x ∈ L.flatten) :
    L.countP (fun c => decide (x ∈ c)) = 1 := by
  induction L with
  | nil => simp at hx
  | cons c L' ih =>
    rw [List.flatten_cons] at hnd hx
    obtain ⟨hc, hL', hdisj⟩ := List.nodup_append.mp hnd
    rw [List.countP_cons]
    by_cases hmem : x ∈ c
    · have hnot : x ∉ L'.flatten := fun hj => hdisj hmem hj
      have hzero : L'.countP (fun c' => decide (x ∈ c')) = 0 := by
        rw [List.countP_eq_zero]
        intro c' hc'
        simp only [decide_eq_true_eq]
        exact fun hxc' => hnot (List.mem_flatten.mpr ⟨c', hc', hxc'⟩)
      simp [hmem, hzero]
    · have hxj : x ∈ L'.flatten := by
        rcases List.mem_append.mp hx with h | h
        · exact absurd h hmem
        · exact h
      simp [hmem, ih hL' hxj]

/-- C7: partitioning an ordered sequence of 7 distinct identifiers with
batch size 3 via `arrayChunk` yields groups of sizes `[3, 3, 1]`,
concatenating the groups in order reproduces the original sequence, and each
identifier appears in exactly one group. -/
theorem arrayChunk_seven_by_three (l : List String)
    (hlen : l.length = 7) (hnd : l.Nodup) :
    (arrayChunk l 3).map List.length = [3, 3, 1] ∧
    (arrayChunk l 3).flatten = l ∧
    ∀ x ∈ l, (arrayChunk l 3).countP (fun c => decide (x ∈ c)) = 1 := by
  rcases l with _ | ⟨a, _ | ⟨b, _ | ⟨c, _ | ⟨d, _ | ⟨e, _ | ⟨f, _ | ⟨g, rest⟩⟩⟩⟩⟩⟩⟩ <;>
    simp only [List.length_nil, List.length_cons] at hlen
  · omega
  · omega
  · omega
  · omega
  · omega
  · omega
  · omega
  · have hrest : rest = [] := by
      have : rest.length = 0 := by omega
      exact List.length_eq_zero.mp this
    subst hrest
    have hchunk : arrayChunk [a, b, c, d, e, f, g] 3 = [[a, b, c], [d, e, f], [g]] := by
      simp [arrayChunk, List.range_succ]
    refine ⟨by rw [hchunk]; rfl, by rw [hchunk]; rfl, ?_⟩
    intro x hx
    apply countP_mem_flatten_nodup
    · rw [hchunk]
      show ([a, b, c] ++ ([d, e, f] ++ ([g] ++ []))).Nodup
      simpa using hnd
    · rw [hchunk]
      show x ∈ [a, b, c] ++ ([d, e, f] ++ ([g] ++ []))
      simpa using hx

/-- Witness for C7 on the identifiers `["a", …, "g"]`. -/
theorem arrayChunk_seven_by_three_witness :
    (arrayChunk ["a", "b", "c", "d", "e", "f", "g"] 3).map List.length = [3, 3, 1] ∧
    (arrayChunk ["a", "b", "c", "d", "e", "f", "g"] 3).flatten =
      ["a", "b", "c", "d", "e", "f", "g"] ∧
    (arrayChunk ["a", "b", "c", "d", "e", "f", "g"] 3).countP
      (fun c => decide ("a" ∈ c)) = 1 := by
  have h := arrayChunk_seven_by_three ["a", "b", "c", "d", "e", "f", "g"] rfl (by decide)
  exact ⟨h.1, h.2.1, h.2.2 "a" (by decide)⟩

/-- C8: every option absent from `options` is resolved to its default —
`strategy = exponential`, `baseDelay = 1000`, `maxDelay = 20000`,
`jitterFactor = 0.2`, `maxAttempts = 3` — and `createBackoffCalculator`
maps an unrecognized or absent strategy value to the exponential
calculator. -/
theorem withRetry_defaults (options : RetryOptions) :
    (options.strategy = none → (resolveConfig options).strategy = "exponential") ∧
    (options.baseDelay = none → (resolveConfig options).baseDelay = 1000) ∧
    (options.maxDelay = none → (resolveConfig options).maxDelay = 20000) ∧
    (options.jitterFactor = none → (resolveConfig options).jitterFactor = 1/5) ∧
    (options.maxAttempts = none → resolveMaxAttempts options = 3) ∧
    (∀ config : BackoffConfig, config.strategy ≠ "decorrelated-jitter" →
      config.strategy ≠ "full-jitter" →
      createBackoffCalculator config = .exponentialCalc) ∧
    (options.strategy = none →
      createBackoffCalculator (resolveConfig options) = .exponentialCalc) := by
  refine ⟨?_, ?_, ?_, ?_, ?_, ?_, ?_⟩
  · intro h; simp [resolveConfig, h]
  · intro h; simp [resolveConfig, h]
  · intro h; simp [resolveConfig, h]
  · intro h; simp [resolveConfig, h]
  · intro h; simp [resolveMaxAttempts, h]
  · intro config h1 h2; simp [createBackoffCalculator, h1, h2]
  · intro h; simp [createBackoffCalculator, resolveConfig, h]

/-- Witness for C8: all-absent options resolve to the documented defaults,
and an unrecognized strategy string selects the exponential calculator. -/
theorem withRetry_defaults_witness :
    (resolveConfig ⟨none, none, none, none, none⟩).strategy = "exponential" ∧
    (resolveConfig ⟨none, none, none, none, none⟩).baseDelay = 1000 ∧
    (resolveConfig ⟨none, none, none, none, none⟩).maxDelay = 20000 ∧
    (resolveConfig ⟨none, none, none, none, none⟩).jitterFactor = 1/5 ∧
    resolveMaxAttempts ⟨none, none, none, none, none⟩ = 3 ∧
    createBackoffCalculator ⟨"bogus-strategy", 1000, 20000, 1/5⟩ = .exponentialCalc ∧
    createBackoffCalculator (resolveConfig ⟨none, none, none, none, none⟩)
      = .exponentialCalc := by
  have h := withRetry_defaults ⟨none, none, none, none, none⟩
  exact ⟨h.1 rfl, h.2.1 rfl, h.2.2.1 rfl, h.2.2.2.1 rfl, h.2.2.2.2.1 rfl,
    h.2.2.2.2.2.1 ⟨"bogus-strategy", 1000, 20000, 1/5⟩ (by decide) (by decide),
    h.2.2.2.2.2.2 rfl⟩

/-- C10: a rejection of the delete-request call is caught (and only logged),
so the per-identifier pipeline does not reject on a delete-request failure:
if the deletion-complete wait resolves, the pipeline resolves with
`none` (undefined) in place of the delete response, and it rejects only with
an error coming from the wait step. -/
theorem deletePipeline_delete_failure {β : Type} (e : JSError)
    (waitResult : Except JSError Unit) :
    (waitResult = .ok () → deletePipeline (β := β) (.error e) waitResult = .ok none) ∧
    (∀ err : JSError, deletePipeline (β := β) (.error e) waitResult = .error err →
      waitResult = .error err) := by
  cases waitResult with
  | ok u => cases u; exact ⟨fun _ => rfl, fun err h => by simp [deletePipeline] at h⟩
  | error w =>
    refine ⟨fun h => by simp at h, fun err h => ?_⟩
    simp only [deletePipeline] at h
    injection h with h'
    rw [h']

/-- Witness for C10: a failed delete followed by a successful wait resolves
with `none`. -/
theorem deletePipeline_delete_failure_witness :
    deletePipeline (β := Unit) (.error ⟨true, some "AccessDenied", none, ""⟩) (.ok ())
      = .ok none := by
  exact (deletePipeline_delete_failure ⟨true, some "AccessDenied", none, ""⟩ (.ok ())).1 rfl
